import Mathlib

/-!
Verification development for the catalog price-change pipeline in
src/Connection.py (fetch, normalize, deduplicate, baseline load, diff,
notify-gated commit).  Each Python function used by the claims is embedded
as an executable Lean definition; theorems about those definitions settle
the claims.
-/

set_option maxRecDepth 8192

namespace Conn

/-! ## Exact rational values

Python Decimal and datetime arithmetic is exact.  Exact values are
embedded as explicit fractions (integer numerator over natural
denominator, denominators positive by construction, representation not
normalized) so that every operation is plain integer arithmetic; value
equality is cross-multiplication.  Frac.val interprets a fraction as the
rational number it denotes.  This matches Python Decimal semantics, where
Decimal("10.00") and Decimal("10") have different representations but
compare equal by value. -/

/-- An exact fraction: num / den, with den positive for every fraction the
embedding constructs. -/
structure Frac where
  num : ℤ
  den : ℕ
deriving DecidableEq

/-- Value equality of fractions, by cross-multiplication. -/
def Frac.eqb (a b : Frac) : Bool :=
  if a.num * (b.den : ℤ) = b.num * (a.den : ℤ) then true else false

/-- The rational number a fraction denotes. -/
def Frac.val (a : Frac) : ℚ := (a.num : ℚ) / (a.den : ℚ)

/-- Negation of a fraction. -/
def Frac.neg (a : Frac) : Frac := ⟨-a.num, a.den⟩

/-- Difference of two fractions. -/
def Frac.sub (a b : Frac) : Frac :=
  ⟨a.num * (b.den : ℤ) - b.num * (a.den : ℤ), a.den * b.den⟩

/-- Add an integer to a fraction. -/
def Frac.addInt (z : ℤ) (a : Frac) : Frac := ⟨z * (a.den : ℤ) + a.num, a.den⟩

/-! ## Python values

The helper functions of Connection.py (to_decimal_or_none,
parse_iso_datetime, are_values_different, ...) receive arbitrary Python
values coming from JSON: None, strings, and numbers.  Those functions
observe a value only through: whether it is None, whether it is an
instance of str, and the text produced by str(value).  A non-None value is
therefore embedded as its str() text together with its str-instance flag;
numbers are represented by the decimal text their repr denotes (Python
repr of a float is the shortest decimal string that round-trips, so this
representation is injective on the numeric values the pipeline handles). -/

/-- A Python value as observed by the helper functions: PyVal.null is
Python None; PyVal.val s isStr is a non-None value whose str() is s and
which is a str instance iff isStr. -/
inductive PyVal where
  | null : PyVal
  | val (s : String) (isStr : Bool) : PyVal
deriving DecidableEq

/-- Text produced by Python str(value); str(None) is "None". -/
def pyStr : PyVal → String
  | .null => "None"
  | .val s _ => s

/-- Python str.strip on a character list: drop whitespace from both ends. -/
def pyStripWs (cs : List Char) : List Char :=
  ((cs.dropWhile Char.isWhitespace).reverse.dropWhile Char.isWhitespace).reverse

/-- Numeric value of a list of ASCII digit characters, as Python int(). -/
def digitsToNatL (cs : List Char) : ℕ :=
  cs.foldl (fun n c => 10 * n + (c.toNat - 48)) 0

/-- Numeric value of an all-digit string, as Python int(). -/
def digitsToNat (s : String) : ℕ := digitsToNatL s.toList

/-! ## Exact decimals (Python decimal.Decimal)

Decimal values produced by Decimal(str(value)) in Connection.py.  Finite
decimals carry their exact value; NaN and signed infinity are kept because
the Decimal constructor accepts them and they drive comparison behaviour.
Signaling NaN and non-ASCII digits are outside the modelled input
domain. -/

/-- A parsed Python Decimal: a finite exact value, NaN, or signed infinity. -/
inductive Dec where
  | num (f : Frac) : Dec
  | nan : Dec
  | inf (pos : Bool) : Dec
deriving DecidableEq

/-- Python Decimal inequality (the != operator): NaN is unequal to
everything including itself; infinities compare by sign; finite values
compare by exact value. -/
def decNe : Dec → Dec → Bool
  | .num a, .num b => ! Frac.eqb a b
  | .nan, _ => true
  | _, .nan => true
  | .inf a, .inf b => if a = b then false else true
  | .num _, .inf _ => true
  | .inf _, .num _ => true

/-- Parse the unsigned part of a decimal numeric string (after the
optional sign): infinity forms, NaN with an optional digit payload, or
digits with optional fraction and exponent, following the decimal
numeric string grammar accepted by the Decimal constructor. -/
def parseDecAux (cs : List Char) (pos : Bool) : Option Dec :=
  let lower := cs.map Char.toLower
  if lower = ['i', 'n', 'f'] ∨ lower = ['i', 'n', 'f', 'i', 'n', 'i', 't', 'y'] then
    some (.inf pos)
  else if lower.take 3 = ['n', 'a', 'n'] ∧ (lower.drop 3).all Char.isDigit then
    some .nan
  else
    let ip := cs.takeWhile Char.isDigit
    let r1 := cs.dropWhile Char.isDigit
    let fr := match r1 with
      | '.' :: rest => some (rest.takeWhile Char.isDigit, rest.dropWhile Char.isDigit)
      | _ => none
    let fp := (fr.map Prod.fst).getD []
    let r2 := (fr.map Prod.snd).getD r1
    if ip = [] ∧ fp = [] then none
    else
      let mant : Frac := ⟨(digitsToNatL (ip ++ fp) : ℤ), 10 ^ fp.length⟩
      match r2 with
      | [] => some (.num (if pos then mant else mant.neg))
      | c :: rest =>
        if c = 'e' ∨ c = 'E' then
          let es := match rest with
            | '+' :: t => (true, t)
            | '-' :: t => (false, t)
            | t => (true, t)
          if es.2 = [] ∨ ¬ es.2.all Char.isDigit then none
          else
            let ex := digitsToNatL es.2
            let v : Frac :=
              if es.1 then ⟨mant.num * (10 : ℤ) ^ ex, mant.den⟩
              else ⟨mant.num, mant.den * 10 ^ ex⟩
            some (.num (if pos then v else v.neg))
        else none

/-- Python Decimal(s) for a string s: strip surrounding whitespace, remove
underscores, then parse an optionally signed decimal numeric string.
Returns none where the constructor raises InvalidOperation. -/
def parseDecimal (s : String) : Option Dec :=
  let cs := (pyStripWs s.toList).filter (fun c => c ≠ '_')
  match cs with
  | '+' :: rest => parseDecAux rest true
  | '-' :: rest => parseDecAux rest false
  | rest => parseDecAux rest true

/-- Embedding of to_decimal_or_none (Connection.py lines 60-63): None maps
to none, otherwise Decimal(str(value)), with parse failure giving none. -/
def to_decimal_or_none : PyVal → Option Dec
  | .null => none
  | .val s _ => parseDecimal s

/-! ## Datetimes (datetime.datetime.fromisoformat)

parse_iso_datetime only ever feeds the parsed datetimes to an equality
test, so a datetime is embedded as the naive clock reading in seconds
since 1970-01-01 together with an optional UTC offset in seconds.  The
parser follows the strict pre-3.11 fromisoformat grammar
YYYY-MM-DD[*HH[:MM[:SS[.fff or .ffffff]]][+HH:MM or -HH:MM]] matching the
code (which first rewrites Z to +00:00); offset seconds are outside the
modelled input domain. -/

/-- A parsed datetime: naive seconds since the epoch on the local clock,
plus an optional UTC offset in seconds (none for a naive datetime). -/
structure Dt where
  secs : Frac
  offset : Option Frac
deriving DecidableEq

/-- Python datetime equality: naive datetimes compare by clock value,
aware datetimes compare as absolute instants, and a naive datetime never
equals an aware one. -/
def dtEq (a b : Dt) : Bool :=
  match a.offset, b.offset with
  | none, none => Frac.eqb a.secs b.secs
  | some x, some y => Frac.eqb (a.secs.sub x) (b.secs.sub y)
  | _, _ => false

/-- Python datetime inequality (the != operator). -/
def dtNe (a b : Dt) : Bool := ! dtEq a b

/-- Read exactly n ASCII digits from the front of the character list. -/
def digitsN (n : ℕ) (cs : List Char) : Option (ℕ × List Char) :=
  let ds := cs.take n
  if ds.length = n ∧ ds.all Char.isDigit then some (digitsToNatL ds, cs.drop n)
  else none

/-- Require character c at the head of the list. -/
def expect (c : Char) (cs : List Char) : Option (List Char) :=
  match cs with
  | x :: r => if x = c then some r else none
  | [] => none

/-- Gregorian leap-year test. -/
def isLeap (y : ℕ) : Bool :=
  (y % 4 = 0 ∧ y % 100 ≠ 0) ∨ y % 400 = 0

/-- Number of days in a month of the proleptic Gregorian calendar. -/
def daysInMonth (y m : ℕ) : ℕ :=
  if m = 2 then (if isLeap y then 29 else 28)
  else if m = 4 ∨ m = 6 ∨ m = 9 ∨ m = 11 then 30
  else 31

/-- Days from 1970-01-01 to the given civil date (standard era-based
conversion of the proleptic Gregorian calendar). -/
def daysFromCivil (y m d : ℕ) : ℤ :=
  let yAdj : ℤ := if m ≤ 2 then (y : ℤ) - 1 else (y : ℤ)
  let era : ℤ := (if 0 ≤ yAdj then yAdj else yAdj - 399) / 400
  let yoe : ℤ := yAdj - era * 400
  let doy : ℤ := (153 * (if 2 < m then (m : ℤ) - 3 else (m : ℤ) + 9) + 2) / 5 + (d : ℤ) - 1
  let doe : ℤ := yoe * 365 + yoe / 4 - yoe / 100 + doy
  era * 146097 + doe - 719468

/-- Parse the time-of-day part HH[:MM[:SS[.fff or .ffffff]]], returning
seconds into the day as an exact fraction. -/
def parseTime (cs : List Char) : Option (Frac × List Char) := do
  let (h, r1) ← digitsN 2 cs
  if 23 < h then none
  else
    match r1 with
    | ':' :: r2 => do
      let (mi, r3) ← digitsN 2 r2
      if 59 < mi then none
      else
        match r3 with
        | ':' :: r4 => do
          let (se, r5) ← digitsN 2 r4
          if 59 < se then none
          else
            match r5 with
            | '.' :: r6 =>
              let fs := r6.takeWhile Char.isDigit
              if fs.length = 3 ∨ fs.length = 6 then
                some (⟨((h * 3600 + mi * 60 + se) * 10 ^ fs.length + digitsToNatL fs : ℕ),
                        10 ^ fs.length⟩, r6.drop fs.length)
              else none
            | _ => some (⟨(h * 3600 + mi * 60 + se : ℕ), 1⟩, r5)
        | _ => some (⟨(h * 3600 + mi * 60 : ℕ), 1⟩, r3)
    | _ => some (⟨(h * 3600 : ℕ), 1⟩, r1)

/-- Parse a UTC offset +HH:MM or -HH:MM, in seconds. -/
def parseOffset (cs : List Char) : Option (Frac × List Char) :=
  match cs with
  | c :: r1 =>
    if c = '+' ∨ c = '-' then do
      let (oh, r2) ← digitsN 2 r1
      let r3 ← expect ':' r2
      let (om, r4) ← digitsN 2 r3
      if oh ≤ 23 ∧ om ≤ 59 then
        let v : Frac := ⟨(oh * 3600 + om * 60 : ℕ), 1⟩
        some (if c = '-' then v.neg else v, r4)
      else none
    else none
  | [] => none

/-- datetime.datetime.fromisoformat on a character list: date part
YYYY-MM-DD, then optionally a single separator character, a time of day
and a UTC offset. -/
def fromisoformatL (cs : List Char) : Option Dt := do
  let (y, r1) ← digitsN 4 cs
  let r2 ← expect '-' r1
  let (mo, r3) ← digitsN 2 r2
  let r4 ← expect '-' r3
  let (d, r5) ← digitsN 2 r4
  if ¬ (1 ≤ y ∧ 1 ≤ mo ∧ mo ≤ 12 ∧ 1 ≤ d ∧ d ≤ daysInMonth y mo) then none
  else
    let base : ℤ := daysFromCivil y mo d * 86400
    match r5 with
    | [] => some ⟨⟨base, 1⟩, none⟩
    | _sep :: r6 => do
      let (t, r7) ← parseTime r6
      match r7 with
      | [] => some ⟨Frac.addInt base t, none⟩
      | _ => do
        let (off, r8) ← parseOffset r7
        if r8 = [] then some ⟨Frac.addInt base t, some off⟩ else none

/-- Embedding of parse_iso_datetime (Connection.py lines 65-68): non-str
values give None; otherwise every Z in the string is replaced by +00:00
and the result is parsed with fromisoformat, parse failure giving None. -/
def parse_iso_datetime : PyVal → Option Dt
  | .val s true =>
    fromisoformatL ((s.toList.map (fun c => if c = 'Z' then "+00:00".toList else [c])).flatten)
  | _ => none

/-- Embedding of are_values_different (Connection.py lines 70-77): two
Nones are equal; None against non-None differs; if both sides parse as
Decimal, decimal inequality decides; otherwise if both parse as
datetimes, datetime inequality decides; otherwise stripped str() texts
are compared. -/
def are_values_different (v1 v2 : PyVal) : Bool :=
  if v1 = PyVal.null ∧ v2 = PyVal.null then false
  else if v1 = PyVal.null ∨ v2 = PyVal.null then true
  else
    match to_decimal_or_none v1, to_decimal_or_none v2 with
    | some d1, some d2 => decNe d1 d2
    | _, _ =>
      match parse_iso_datetime v1, parse_iso_datetime v2 with
      | some t1, some t2 => dtNe t1 t2
      | _, _ =>
        if pyStripWs (pyStr v1).toList = pyStripWs (pyStr v2).toList then false else true

/-! ## Binary floating point (Python float)

to_float_or_none converts the parsed Decimal to a Python float, i.e. an
IEEE-754 binary64 value.  A finite float is embedded as the exact
fraction it denotes; the conversion rounds the exact decimal value to 53
significand bits with round-half-to-even.  Overflow to infinity and
subnormal underflow lie outside the modelled range (catalog prices are
ordinary magnitudes). -/

/-- A Python float: a finite binary64 value given by its exact fraction,
NaN, or signed infinity. -/
inductive Float64 where
  | finite (f : Frac) : Float64
  | nan : Float64
  | inf (pos : Bool) : Float64
deriving DecidableEq

/-- Round a positive fraction n / d to the nearest integer, ties to even. -/
def roundHalfEvenPos (n d : ℕ) : ℕ :=
  let fl := n / d
  let r := n % d
  if 2 * r < d then fl
  else if d < 2 * r then fl + 1
  else if fl % 2 = 0 then fl else fl + 1

/-- Base-2 logarithm on naturals by structural recursion on a fuel
argument, so that it evaluates inside the kernel. -/
def log2fuel : ℕ → ℕ → ℕ
  | 0, _ => 0
  | fuel + 1, n => if 2 ≤ n then log2fuel fuel (n / 2) + 1 else 0

/-- Floor of the base-2 logarithm of a positive natural. -/
def nlog2 (n : ℕ) : ℕ := log2fuel n n

/-- Floor of the base-2 logarithm of the positive fraction n / d. -/
def flog2Pos (n d : ℕ) : ℤ :=
  let e0 : ℤ := (nlog2 n : ℤ) - (nlog2 d : ℤ)
  let le :=
    if 0 ≤ e0 then d * 2 ^ e0.toNat ≤ n else d ≤ n * 2 ^ (-e0).toNat
  if le then e0 else e0 - 1

/-- Correctly rounded conversion of an exact fraction to the binary64
value nearest to it (round-half-to-even at 53 significand bits), returned
as the exact fraction that float denotes.  Models CPython float(Decimal)
on the normal finite range. -/
def floatOfFrac (q : Frac) : Frac :=
  if q.num = 0 then ⟨0, 1⟩
  else
    let n := q.num.natAbs
    let d := q.den
    let e := flog2Pos n d
    let s : ℤ := 52 - e
    let scaled : ℕ × ℕ :=
      if 0 ≤ s then (n * 2 ^ s.toNat, d) else (n, d * 2 ^ (-s).toNat)
    let m := roundHalfEvenPos scaled.1 scaled.2
    let t : ℤ := e - 52
    let mag : Frac := if 0 ≤ t then ⟨(m : ℤ) * 2 ^ t.toNat, 1⟩ else ⟨(m : ℤ), 2 ^ (-t).toNat⟩
    if q.num < 0 then mag.neg else mag

/-- Conversion of a parsed Decimal to a Python float value. -/
def floatOfDec : Dec → Float64
  | .num f => .finite (floatOfFrac f)
  | .nan => .nan
  | .inf p => .inf p

/-- Embedding of to_float_or_none (Connection.py lines 79-81): parse the
value as an exact Decimal, then convert that Decimal to a float; a value
with no Decimal parse maps to None. -/
def to_float_or_none (v : PyVal) : Option Float64 :=
  (to_decimal_or_none v).map floatOfDec

/-! ## The normalizer (map_api_record_to_internal) -/

/-- Python truthiness for the values the normalizer tests: None and the
empty string are falsy, a numeric value is falsy iff it is zero.
Container values never reach these tests in the modelled pipeline. -/
def pyTruthy : PyVal → Bool
  | .null => false
  | .val s true => if s = "" then false else true
  | .val s false =>
    match parseDecimal s with
    | some (.num f) => if f.num = 0 then false else true
    | _ => true

/-- Python str(value).isdigit() restricted to ASCII digits: true iff the
text is nonempty and all characters are digits. -/
def pyIsdigit : PyVal → Bool
  | .null => false
  | .val s _ => if s.toList ≠ [] ∧ s.toList.all Char.isDigit then true else false

/-- Python int(str(value)) for an all-digit text. -/
def pyDigitsVal : PyVal → ℕ
  | .null => 0
  | .val s _ => digitsToNat s

/-- Embedding of safe_convert_timestamp (Connection.py lines 83-89): a
falsy, non-all-digit, or zero input maps to None; otherwise the
epoch-millisecond count n is converted to the UTC instant n / 1000
seconds after the epoch.  The isoformat rendering of that instant is
abstracted to the instant itself; the float intermediate of the code is
exact on the modelled range of timestamps. -/
def safe_convert_timestamp (ts : PyVal) : Option Frac :=
  if ¬ pyTruthy ts ∨ ¬ pyIsdigit ts ∨ pyDigitsVal ts = 0 then none
  else some ⟨(pyDigitsVal ts : ℤ), 1000⟩

/-- A raw record of the external API, with the fields
map_api_record_to_internal reads (all arbitrary JSON values). -/
structure ApiRaw where
  id : PyVal
  name : PyVal
  arabic : PyVal
  active : PyVal
  company : PyVal
  price : PyVal
  Date_updated : PyVal
  units : PyVal
  barcode : PyVal
  dosage_form : PyVal
  uses : PyVal
  img : PyVal
deriving DecidableEq

/-- The normalized internal record produced by map_api_record_to_internal:
the price is the float produced by to_float_or_none (None when the price
did not parse), the previous price starts as None, and the last update
date is the converted timestamp. -/
structure NormRec where
  ID : PyVal
  commercialNameEn : PyVal
  commercialNameAr : PyVal
  activeIngredients : PyVal
  manufacturer : PyVal
  currentPrice : Option Float64
  previousPrice : Option Float64
  lastPriceUpdateDate : Option Frac
  units : PyVal
  barcode : PyVal
  dosageForm : PyVal
  usesAr : PyVal
  imageUrl : PyVal
deriving DecidableEq

/-- Embedding of map_api_record_to_internal (Connection.py lines 92-108):
a record without a truthy id maps to None; otherwise the fields are
copied, with the price passed through to_float_or_none and the update
date through safe_convert_timestamp. -/
def map_api_record_to_internal (r : ApiRaw) : Option NormRec :=
  if ¬ pyTruthy r.id then none
  else some
    { ID := r.id
      commercialNameEn := r.name
      commercialNameAr := r.arabic
      activeIngredients := r.active
      manufacturer := r.company
      currentPrice := to_float_or_none r.price
      previousPrice := none
      lastPriceUpdateDate := safe_convert_timestamp r.Date_updated
      units := r.units
      barcode := r.barcode
      dosageForm := r.dosage_form
      usesAr := r.uses
      imageUrl := r.img }

/-! ## The fetcher (fetch_drug_data_for_query)

One shard fetch is a loop of at most MAX_RETRIES attempts.  The network
is abstracted by an oracle giving each attempt's outcome: a failure (any
exception: non-2xx status, timeout, transport error, malformed body) or a
successful response whose data payload is either a list of raw records or
not a list.  The trace records each attempt and each backoff sleep with
its duration in seconds. -/

/-- The data payload of a successful response. -/
inductive Payload where
  | items (l : List ApiRaw) : Payload
  | notList : Payload

/-- Outcome of one request attempt. -/
inductive AttemptResult where
  | fail : AttemptResult
  | ok (p : Payload) : AttemptResult

/-- An event of the fetch loop: a request attempt (0-based index) or a
backoff sleep of the given number of seconds. -/
inductive FetchEv where
  | attempt (i : ℕ) : FetchEv
  | sleep (secs : ℕ) : FetchEv
deriving DecidableEq

/-- Whether a fetch event is a request attempt. -/
def isAttempt : FetchEv → Bool
  | .attempt _ => true
  | .sleep _ => false

/-- Default retry ceiling MAX_RETRIES (Connection.py line 29). -/
def MAX_RETRIES : ℕ := 5

/-- Default backoff base RETRY_DELAY_SECONDS (Connection.py line 30). -/
def RETRY_DELAY_SECONDS : ℕ := 2

/-- The retry loop of fetch_drug_data_for_query from attempt i with rem
attempts remaining: on success return the list payload (or the empty list
when the payload is not a list); on failure sleep base * 2 ^ i seconds
and continue; with no attempts remaining return none (retries
exhausted). -/
def fetchGo (outcomes : ℕ → AttemptResult) (base : ℕ) :
    ℕ → ℕ → List FetchEv × Option (List ApiRaw)
  | _, 0 => ([], none)
  | i, rem + 1 =>
    match outcomes i with
    | .ok (.items l) => ([.attempt i], some l)
    | .ok .notList => ([.attempt i], some [])
    | .fail =>
      let r := fetchGo outcomes base (i + 1) rem
      (.attempt i :: .sleep (base * 2 ^ i) :: r.1, r.2)

/-- Embedding of fetch_drug_data_for_query (Connection.py lines 119-137):
run the retry loop from attempt 0; exhausting all retries yields the
empty result for this query.  Returns the event trace together with the
(query, drug list) pair the coroutine returns. -/
def fetch_drug_data_for_query (q : String) (outcomes : ℕ → AttemptResult)
    (maxRetries base : ℕ) : List FetchEv × String × List ApiRaw :=
  let r := fetchGo outcomes base 0 maxRetries
  (r.1, q, r.2.getD [])

/-- The per-shard results collected by asyncio.gather in main
(Connection.py lines 663-665): one (query, list) result per query, in
task order; each shard runs its own retry loop independently. -/
def fetchAll (queries : List String) (oracles : String → ℕ → AttemptResult)
    (maxRetries base : ℕ) : List (String × List ApiRaw) :=
  queries.map (fun q => (fetch_drug_data_for_query q (oracles q) maxRetries base).2)

/-! ## The pipeline records

Downstream of the normalizer only the identifier and the current price of
a record drive control flow (the remaining fields are carried through
unchanged), so a pipeline record is embedded as the str() of its ID
together with its Current Price value; a baseline row from the store
carries its id and current_price field the same way. -/

/-- A mapped drug record as seen by process_and_commit_changes: the str()
of its ID and its Current Price value (None or the float's observable
value). -/
structure PRec where
  ID : String
  currentPrice : PyVal
deriving DecidableEq

/-- A baseline row returned by the get_latest_record_for_ids lookup. -/
structure DbRec where
  id : String
  current_price : PyVal
deriving DecidableEq

/-! ## Batching -/

/-- Baseline-load batch size BATCH_RPC_SIZE (Connection.py line 450). -/
def BATCH_RPC_SIZE : ℕ := 1000

/-- Commit batch size BATCH_INSERT_SIZE (Connection.py line 532). -/
def BATCH_INSERT_SIZE : ℕ := 500

/-- The slices xs[i : i + B] for i in range(0, len(xs), B), as in the
baseline-load and commit loops. -/
def batchSlices {α : Type} (xs : List α) (B : ℕ) : List (List α) :=
  (List.range' 0 ((xs.length + B - 1) / B) B).map (fun i => (xs.drop i).take B)

/-- The deduplicated identifier list of process_and_commit_changes
(Connection.py line 445): the str() IDs of the records with a truthy ID,
without duplicates.  Python builds this from a set, whose iteration
order is unspecified; the claims depend only on its content and
length. -/
def all_ids_to_check (drugs : List PRec) : List String :=
  ((drugs.filter (fun d => d.ID ≠ "")).map PRec.ID).eraseDups

/-- The baseline-fetch calls issued by the loop at Connection.py lines
451-459: one get_latest_record_for_ids call per BATCH_RPC_SIZE slice of
the identifier list. -/
def baselineCalls (ids : List String) : List (List String) :=
  batchSlices ids BATCH_RPC_SIZE

/-! ## Classification (Diff Engine) -/

/-- One entry of records_to_commit: the candidate record and its baseline
row (none for a NEW record; the code's is_new flag is exactly the absence
of the baseline). -/
structure CEntry where
  api : PRec
  db : Option DbRec
deriving DecidableEq

/-- Embedding of the classification loop (Connection.py lines 464-478):
records without a truthy id are skipped; a record with no baseline row
becomes a NEW entry; a record whose price differs from its baseline's
current_price becomes a CHANGED entry; an unchanged record produces no
entry.  The baseline lookup last_row_by_id.get is abstracted as a
function from identifiers to optional rows. -/
def classifyOne (base : String → Option DbRec) (d : PRec) : Option CEntry :=
  if d.ID = "" then none
  else
    match base d.ID with
    | none => some ⟨d, none⟩
    | some row =>
      if are_values_different d.currentPrice row.current_price then some ⟨d, some row⟩
      else none

/-- The full records_to_commit list built by the classification loop. -/
def classifyRecords (drugs : List PRec) (base : String → Option DbRec) : List CEntry :=
  drugs.filterMap (classifyOne base)

/-! ## The notification gate -/

/-- A notification attempt for one record: its id, the previous (stored)
price and the current (fetched) price, exactly the pair handed to the
message renderer as previous/current. -/
structure NotifyEvent where
  id : String
  prev : PyVal
  cur : PyVal
deriving DecidableEq

/-- Embedding of the notify-then-queue loop (Connection.py lines
488-519): a NEW entry is queued for upload directly; for a CHANGED entry
(its price differs from the baseline, re-checked as in the code) the
render-and-send block is invoked only behind the availability guard
`if telegram_client and telegram_client.is_connected()` of line 501 —
with the notifier available it emits one notification attempt with the
(previous, current) prices, with it unavailable only a warning is
logged and nothing is invoked — and the entry is queued iff the
notifier is available and the attempt succeeds; other entries are
skipped.  avail is the telegram_client-present-and-connected test;
outcome is the result of the render-and-send try block (an exception
or a failed send gives false).  Returns (notification attempts,
records queued for upload), in loop order. -/
def notifyGate (avail : Bool) (outcome : CEntry → Bool) :
    List CEntry → List NotifyEvent × List PRec
  | [] => ([], [])
  | e :: rest =>
    let r := notifyGate avail outcome rest
    match e.db with
    | none => (r.1, e.api :: r.2)
    | some row =>
      if are_values_different e.api.currentPrice row.current_price then
        (if avail then ⟨e.api.ID, row.current_price, e.api.currentPrice⟩ :: r.1 else r.1,
          if avail && outcome e then e.api :: r.2 else r.2)
      else r

/-- The notification attempt one records_to_commit entry produces in the
gate loop: a CHANGED entry attempts one notification carrying the
(previous, current) price pair when the notifier is available; NEW and
unchanged entries, and an unavailable notifier, attempt none. -/
def gateEv (avail : Bool) (e : CEntry) : Option NotifyEvent :=
  match e.db with
  | none => none
  | some row =>
    if are_values_different e.api.currentPrice row.current_price && avail then
      some ⟨e.api.ID, row.current_price, e.api.currentPrice⟩
    else none

/-- Whether the gate loop queues an entry for upload: a NEW entry always,
a CHANGED entry exactly when the notifier is available and its attempt
succeeds. -/
def gateQueued (avail : Bool) (outcome : CEntry → Bool) (e : CEntry) : Bool :=
  match e.db with
  | none => true
  | some row =>
    are_values_different e.api.currentPrice row.current_price && (avail && outcome e)

/-! ## The commit writer -/

/-- A row of the history table: the record's fields plus the scraped_at
commit timestamp (wall-clock seconds at commit time). -/
structure HRow where
  record : PRec
  scraped_at : ℕ
deriving DecidableEq

/-- A write operation against the persistent store.  The code only ever
emits historyInsert; currentUpsert is the current-state upsert named by
the spec's persistent-store interface, included so its absence is
expressible. -/
inductive DbOp where
  | historyInsert (rows : List HRow) : DbOp
  | currentUpsert (rows : List HRow) : DbOp
deriving DecidableEq

/-- Whether a store operation is a current-state upsert. -/
def DbOp.isUpsert : DbOp → Bool
  | .historyInsert _ => false
  | .currentUpsert _ => true

/-- The rows written by a store operation. -/
def DbOp.rows : DbOp → List HRow
  | .historyInsert rows => rows
  | .currentUpsert rows => rows

/-- Embedding of the upload loop (Connection.py lines 525-540): every
queued record becomes a history row stamped with the commit wall-clock
time, the rows are cut into BATCH_INSERT_SIZE slices, and one history
insert is attempted per slice.  ok i tells whether batch i succeeds; a
failing batch is logged as critical (its index is returned) and the loop
continues with the next batch.  Returns (attempted store operations,
critically-logged batch indices). -/
def commitPhase (ups : List PRec) (now : ℕ) (ok : ℕ → Bool) : List DbOp × List ℕ :=
  let rows := ups.map (fun r => (⟨r, now⟩ : HRow))
  let batches := batchSlices rows BATCH_INSERT_SIZE
  (batches.map DbOp.historyInsert, (List.range batches.length).filter (fun i => ! ok i))

/-! ## The deduplicator (main, Connection.py lines 672-677) -/

/-- Python dict insertion: if the key is present its value is replaced in
place, otherwise the pair is appended. -/
def dictInsert (m : List (String × PRec)) (k : String) (v : PRec) : List (String × PRec) :=
  if k ∈ m.map Prod.fst then
    m.map (fun p => if p.1 = k then (k, v) else p)
  else m ++ [(k, v)]

/-- Embedding of the dict comprehension at Connection.py line 675: fold
the mapped records into a dict keyed by ID, keeping records with a truthy
ID; a later record with the same ID overwrites the earlier value
(last-write-wins). -/
def unique_drugs_dict (xs : List PRec) : List (String × PRec) :=
  xs.foldl (fun m d => if d.ID = "" then m else dictInsert m d.ID d) []

/-- The deduplicated record list fed into process_and_commit_changes
(Connection.py line 676). -/
def unique_drugs_list (xs : List PRec) : List PRec :=
  (unique_drugs_dict xs).map Prod.snd

/-- The last record in xs carrying the given identifier, if any. -/
def lastOcc (xs : List PRec) (k : String) : Option PRec :=
  (xs.filter (fun e => e.ID = k)).getLast?

/-- Lookup in the association-list model of a Python dict: the value at
the first pair whose key matches. -/
def dictLookup : List (String × PRec) → String → Option PRec
  | [], _ => none
  | p :: rest, x => if p.1 = x then some p.2 else dictLookup rest x

/-! ## Helper lemmas -/

/-- Value equality of fractions with positive denominators coincides with
equality of the rationals they denote. -/
theorem Frac.eqb_iff_val (a b : Frac) (ha : 0 < a.den) (hb : 0 < b.den) :
    Frac.eqb a b = true ↔ a.val = b.val := by
  have ha' : ((a.den : ℚ)) ≠ 0 := by positivity
  have hb' : ((b.den : ℚ)) ≠ 0 := by positivity
  rw [Frac.eqb, Frac.val, Frac.val, div_eq_div_iff ha' hb']
  constructor
  · intro h
    have h' : a.num * (b.den : ℤ) = b.num * (a.den : ℤ) := by
      by_contra hne
      simp [hne] at h
    exact_mod_cast congrArg (fun z : ℤ => (z : ℚ)) h'
  · intro h
    have h' : a.num * (b.den : ℤ) = b.num * (a.den : ℤ) := by exact_mod_cast h
    simp [h']

theorem Frac.eqb_refl (a : Frac) : Frac.eqb a a = true := by
  simp [Frac.eqb]

theorem Frac.eqb_comm (a b : Frac) : Frac.eqb a b = Frac.eqb b a := by
  rw [Frac.eqb, Frac.eqb]
  by_cases h : a.num * (b.den : ℤ) = b.num * (a.den : ℤ)
  · rw [if_pos h, if_pos h.symm]
  · rw [if_neg h, if_neg (fun h2 => h h2.symm)]

theorem decNe_comm (a b : Dec) : decNe a b = decNe b a := by
  cases a <;> cases b <;> simp [decNe, Frac.eqb_comm, eq_comm]

theorem decNe_num_self (f : Frac) : decNe (.num f) (.num f) = false := by
  simp [decNe, Frac.eqb_refl]

theorem dtEq_comm (a b : Dt) : dtEq a b = dtEq b a := by
  rcases a with ⟨sa, oa⟩
  rcases b with ⟨sb, ob⟩
  rcases oa with _ | x <;> rcases ob with _ | y <;> simp [dtEq, Frac.eqb_comm]

theorem dtEq_refl (a : Dt) : dtEq a a = true := by
  rcases a with ⟨s, o⟩
  rcases o with _ | x <;> simp [dtEq, Frac.eqb_refl]

theorem val_ne_null (s : String) (b : Bool) : PyVal.val s b ≠ PyVal.null :=
  fun h => PyVal.noConfusion h

/-- Unfolding of are_values_different on two non-None values. -/
theorem are_values_different_val_val (s1 s2 : String) (b1 b2 : Bool) :
    are_values_different (.val s1 b1) (.val s2 b2)
      = match to_decimal_or_none (.val s1 b1), to_decimal_or_none (.val s2 b2) with
        | some d1, some d2 => decNe d1 d2
        | _, _ =>
          match parse_iso_datetime (.val s1 b1), parse_iso_datetime (.val s2 b2) with
          | some t1, some t2 => dtNe t1 t2
          | _, _ =>
            if pyStripWs s1.toList = pyStripWs s2.toList then false else true := by
  rw [are_values_different, if_neg (fun h => val_ne_null s1 b1 h.1),
    if_neg (fun h => h.elim (val_ne_null s1 b1) (val_ne_null s2 b2))]
  rfl

/-! ## Claim C9 — timestamp normalization -/

/-- Claim C9: safe_convert_timestamp maps None, an empty input, an input
that is not composed entirely of digits, and an input equal to zero to
absent (none), never to epoch-zero; any other all-digit epoch-millisecond
string of n milliseconds is converted to the UTC instant n / 1000 seconds
after the epoch. -/
theorem C9_timestamp_absent_rules :
    (safe_convert_timestamp PyVal.null = none)
    ∧ (∀ (s : String) (b : Bool),
        s = "" ∨ s.toList.all Char.isDigit = false ∨ digitsToNat s = 0 →
          safe_convert_timestamp (.val s b) = none)
    ∧ (∀ s : String, s ≠ "" → s.toList.all Char.isDigit = true → digitsToNat s ≠ 0 →
        safe_convert_timestamp (.val s true) = some ⟨(digitsToNat s : ℤ), 1000⟩) := by
  refine ⟨by decide, ?_, ?_⟩
  · intro s b h
    rcases h with h | h | h
    · subst h
      cases b <;> decide
    · have hd : pyIsdigit (.val s b) = false := by
        show (if s.toList ≠ [] ∧ s.toList.all Char.isDigit then true else false) = false
        exact if_neg (fun hc => by rw [hc.2] at h; exact Bool.noConfusion h)
      rw [safe_convert_timestamp,
        if_pos (Or.inr (Or.inl (fun hc => by rw [hd] at hc; exact Bool.noConfusion hc)))]
    · have h2 : pyDigitsVal (PyVal.val s b) = 0 := h
      rw [safe_convert_timestamp, if_pos (Or.inr (Or.inr h2))]
  · intro s hne hdig hzero
    have hl : s.toList ≠ [] := by
      intro hnil
      apply hne
      apply String.ext
      simpa [String.toList] using hnil
    have ht : pyTruthy (.val s true) = true := by
      show (if s = "" then false else true) = true
      exact if_neg hne
    have hd : pyIsdigit (.val s true) = true := by
      show (if s.toList ≠ [] ∧ s.toList.all Char.isDigit then true else false) = true
      exact if_pos ⟨hl, hdig⟩
    rw [safe_convert_timestamp, if_neg ?hcond]
    case hcond =>
      rintro (h | h | h)
      · rw [ht] at h
        exact h rfl
      · rw [hd] at h
        exact h rfl
      · exact hzero h
    rfl

/-- Witness for C9 at a concrete timestamp. -/
theorem C9_timestamp_absent_rules_witness :
    safe_convert_timestamp (.val "1700000000000" true) = some ⟨1700000000000, 1000⟩ :=
  C9_timestamp_absent_rules.2.2 "1700000000000" (by decide) (by decide) (by decide)

/-! ## Claim C2 — the normalizer's price is a float, not an exact decimal -/

/-- Counterexample to claim C2: the claim says the normalized record
carries the price as an exact decimal, not a floating-point value.  For a
raw record with price "0.1" the price parses exactly to 1/10, but the
record built by map_api_record_to_internal stores the binary64 value
7205759403792794 / 2^56 produced by to_float_or_none, which differs from
the exact decimal 1/10. -/
theorem C2_price_float_counterexample :
    to_decimal_or_none (PyVal.val "0.1" true) = some (.num ⟨1, 10⟩)
    ∧ (map_api_record_to_internal
          ⟨.val "1" true, .null, .null, .null, .null, .val "0.1" true,
            .null, .null, .null, .null, .null, .null⟩).map NormRec.currentPrice
        = some (some (.finite ⟨7205759403792794, 72057594037927936⟩))
    ∧ Frac.eqb ⟨7205759403792794, 72057594037927936⟩ ⟨1, 10⟩ = false
    ∧ Frac.val ⟨7205759403792794, 72057594037927936⟩ ≠ Frac.val ⟨1, 10⟩ := by
  refine ⟨by decide, by decide, by decide, ?_⟩
  simp only [Frac.val]
  norm_num

/-- Claim C2 as amended: the normalizer parses the price of a raw record
via exact decimal parsing and an unparsable price maps to absent (none),
not zero; but the resulting record stores the binary floating-point
conversion of that decimal, not the exact decimal itself. -/
theorem C2_price_decimal_parse_then_float (r : ApiRaw) (rec : NormRec)
    (h : map_api_record_to_internal r = some rec) :
    rec.currentPrice = (to_decimal_or_none r.price).map floatOfDec
    ∧ (to_decimal_or_none r.price = none → rec.currentPrice = none)
    ∧ (∀ f : Frac, to_decimal_or_none r.price = some (.num f) →
        rec.currentPrice = some (.finite (floatOfFrac f))) := by
  rw [map_api_record_to_internal] at h
  split_ifs at h with hid
  rw [Option.some_inj] at h
  subst h
  refine ⟨rfl, ?_, ?_⟩
  · intro hp
    simp [to_float_or_none, hp]
  · intro f hp
    simp [to_float_or_none, hp, floatOfDec]

/-- Witness for the amended C2 at a concrete raw record. -/
theorem C2_price_decimal_parse_then_float_witness :
    ({ ID := .val "1" true, commercialNameEn := .null, commercialNameAr := .null,
       activeIngredients := .null, manufacturer := .null,
       currentPrice := some (.finite ⟨7205759403792794, 72057594037927936⟩),
       previousPrice := none, lastPriceUpdateDate := none, units := .null,
       barcode := .null, dosageForm := .null, usesAr := .null,
       imageUrl := .null } : NormRec).currentPrice
      = (to_decimal_or_none (PyVal.val "0.1" true)).map floatOfDec :=
  (C2_price_decimal_parse_then_float
    ⟨.val "1" true, .null, .null, .null, .null, .val "0.1" true,
      .null, .null, .null, .null, .null, .null⟩ _ (by decide)).1

/-! ## Claim C10 — symmetry and (qualified) irreflexivity of the diff test -/

/-- Counterexample to claim C10: the claim says are_values_different v v
is false for every value v.  A value whose text is "nan" parses to
Decimal NaN on both sides, and Python Decimal NaN is unequal to itself,
so such a value is reported as different from itself. -/
theorem C10_nan_self_different_counterexample :
    to_decimal_or_none (.val "nan" true) = some Dec.nan
    ∧ are_values_different (.val "nan" true) (.val "nan" true) = true := by
  exact ⟨by decide, by decide⟩

/-- Claim C10 as amended: are_values_different is symmetric for every
pair of values, and every value that does not parse to Decimal NaN is
never different from itself. -/
theorem C10_diff_symmetric_irreflexive :
    (∀ a b : PyVal, are_values_different a b = are_values_different b a)
    ∧ (∀ v : PyVal, to_decimal_or_none v ≠ some Dec.nan →
        are_values_different v v = false) := by
  constructor
  · intro a b
    rcases a with _ | ⟨s1, b1⟩ <;> rcases b with _ | ⟨s2, b2⟩
    · rfl
    · simp [are_values_different, val_ne_null s2 b2]
    · simp [are_values_different, val_ne_null s1 b1]
    · rw [are_values_different_val_val, are_values_different_val_val]
      cases h1 : to_decimal_or_none (PyVal.val s1 b1) <;>
        cases h2 : to_decimal_or_none (PyVal.val s2 b2)
      · cases h3 : parse_iso_datetime (PyVal.val s1 b1) <;>
          cases h4 : parse_iso_datetime (PyVal.val s2 b2) <;>
          simp [dtNe, dtEq_comm, eq_comm]
      · cases h3 : parse_iso_datetime (PyVal.val s1 b1) <;>
          cases h4 : parse_iso_datetime (PyVal.val s2 b2) <;>
          simp [dtNe, dtEq_comm, eq_comm]
      · cases h3 : parse_iso_datetime (PyVal.val s1 b1) <;>
          cases h4 : parse_iso_datetime (PyVal.val s2 b2) <;>
          simp [dtNe, dtEq_comm, eq_comm]
      · simp [decNe_comm]
  · intro v hv
    rcases v with _ | ⟨s, b⟩
    · rfl
    · rw [are_values_different_val_val]
      cases h1 : to_decimal_or_none (PyVal.val s b)
      · cases h2 : parse_iso_datetime (PyVal.val s b) <;> simp [dtNe, dtEq_refl]
      · rename_i d
        cases d
        · simp [decNe_num_self]
        · exact absurd h1 hv
        · simp [decNe]

/-- Witness for the amended C10 at a concrete value. -/
theorem C10_diff_symmetric_irreflexive_witness :
    are_values_different (.val "12.50" false) (.val "12.50" false) = false :=
  C10_diff_symmetric_irreflexive.2 (.val "12.50" false) (by decide)

/-! ## Claim C7 — baseline-load batching -/

/-- Claim C7: the baseline loader cuts the deduplicated identifier list
into batches of at most 1000 and issues one baseline-fetch call per
batch; for 1500 identifiers exactly two calls are made, of sizes 1000
and 500. -/
theorem C7_baseline_batching (ids : List String) :
    (∀ b ∈ baselineCalls ids, b.length ≤ 1000)
    ∧ (ids.length = 1500 →
        (baselineCalls ids).map List.length = [1000, 500]
        ∧ (baselineCalls ids).length = 2) := by
  constructor
  · intro b hb
    rw [baselineCalls, batchSlices, List.mem_map] at hb
    obtain ⟨i, _, rfl⟩ := hb
    calc ((ids.drop i).take BATCH_RPC_SIZE).length ≤ BATCH_RPC_SIZE :=
          (List.length_take _ _).le.trans (min_le_left _ _)
      _ = 1000 := rfl
  · intro h
    have hn : (ids.length + BATCH_RPC_SIZE - 1) / BATCH_RPC_SIZE = 2 := by
      rw [h]; rfl
    have hr : List.range' 0 2 BATCH_RPC_SIZE = [0, 1000] := by decide
    rw [baselineCalls, batchSlices, hn, hr]
    have t1 : ((ids.drop 0).take BATCH_RPC_SIZE).length = 1000 := by
      rw [List.length_take, List.length_drop, h]
      decide
    have t2 : ((ids.drop 1000).take BATCH_RPC_SIZE).length = 500 := by
      rw [List.length_take, List.length_drop, h]
      decide
    refine ⟨?_, rfl⟩
    simp only [List.map_cons, List.map_nil]
    rw [t1, t2]

/-- Witness for C7 at a concrete identifier list of length 1500. -/
theorem C7_baseline_batching_witness :
    (List.replicate 1000 "x").length ≤ 1000
    ∧ (baselineCalls (List.replicate 1500 "x")).map List.length = [1000, 500] := by
  have hcalls : baselineCalls (List.replicate 1500 "x")
      = [List.replicate 1000 "x", List.replicate 500 "x"] := by
    rw [baselineCalls, batchSlices]
    have hn : ((List.replicate 1500 "x").length + BATCH_RPC_SIZE - 1) / BATCH_RPC_SIZE = 2 := by
      rw [List.length_replicate]
      decide
    have hr : List.range' 0 2 BATCH_RPC_SIZE = [0, 1000] := by decide
    rw [hn, hr]
    simp only [List.map_cons, List.map_nil, List.drop_zero, List.drop_replicate,
      List.take_replicate]
    norm_num [BATCH_RPC_SIZE]
  exact ⟨(C7_baseline_batching (List.replicate 1500 "x")).1 (List.replicate 1000 "x")
      (by rw [hcalls]; exact List.mem_cons_self _ _),
    ((C7_baseline_batching (List.replicate 1500 "x")).2 (by simp)).1⟩

/-! ## Claim C6 — fetch retry with exponential backoff -/

theorem fetchGo_all_fail (outcomes : ℕ → AttemptResult) (base : ℕ) :
    ∀ (rem i : ℕ), (∀ k, k < rem → outcomes (i + k) = .fail) →
      fetchGo outcomes base i rem
        = (((List.range' i rem).map
            (fun j => [FetchEv.attempt j, FetchEv.sleep (base * 2 ^ j)])).flatten, none) := by
  intro rem
  induction rem with
  | zero => intro i _; rfl
  | succ n ih =>
    intro i h
    have h0 : outcomes i = .fail := by simpa using h 0 n.succ_pos
    have hrest : ∀ k, k < n → outcomes (i + 1 + k) = .fail := by
      intro k hk
      have := h (k + 1) (by omega)
      rwa [show i + (k + 1) = i + 1 + k by omega] at this
    rw [fetchGo, h0, ih (i + 1) hrest]
    simp [List.range']

theorem fetchGo_attempts_le (outcomes : ℕ → AttemptResult) (base : ℕ) :
    ∀ (rem i : ℕ), ((fetchGo outcomes base i rem).1.countP isAttempt) ≤ rem := by
  intro rem
  induction rem with
  | zero => intro i; simp [fetchGo]
  | succ n ih =>
    intro i
    rw [fetchGo]
    cases houtcome : outcomes i with
    | ok p =>
      cases p <;> simp [List.countP_cons, isAttempt]
    | fail =>
      have := ih (i + 1)
      simp [List.countP_cons, isAttempt]
      omega

theorem fetchGo_notList (outcomes : ℕ → AttemptResult) (base : ℕ) :
    ∀ (rem i k : ℕ), k < rem → (∀ j, j < k → outcomes (i + j) = .fail) →
      outcomes (i + k) = .ok .notList →
      (fetchGo outcomes base i rem).2 = some [] := by
  intro rem
  induction rem with
  | zero => intro i k hk; omega
  | succ n ih =>
    intro i k hk hfail hok
    cases k with
    | zero =>
      rw [fetchGo]
      rw [Nat.add_zero] at hok
      rw [hok]
    | succ m =>
      have h0 : outcomes i = .fail := by simpa using hfail 0 m.succ_pos
      rw [fetchGo, h0]
      have hfail2 : ∀ j, j < m → outcomes (i + 1 + j) = .fail := by
        intro j hj
        have := hfail (j + 1) (by omega)
        rwa [show i + (j + 1) = i + 1 + j by omega] at this
      have hok2 : outcomes (i + 1 + m) = .ok .notList := by
        rwa [show i + (m + 1) = i + 1 + m by omega] at hok
      exact ih (i + 1) m (by omega) hfail2 hok2

/-- Claim C6: for a query shard whose requests all fail, the fetch loop
sleeps RETRY_DELAY * 2 ^ attempt seconds after each failed attempt
(before attempt attempt + 1), makes at most maxRetries attempts (default
MAX_RETRIES = 5), and on exhaustion returns the empty result for that
shard; a successful response whose data payload is not a list is likewise
returned as an empty result; and within the gathered per-shard results an
exhausted shard contributes exactly its own empty entry, every other
shard contributing its own result (the run is never aborted). -/
theorem C6_fetch_retry_backoff (q : String) (outcomes : ℕ → AttemptResult)
    (maxRetries base : ℕ) :
    ((∀ i, i < maxRetries → outcomes i = .fail) →
      fetch_drug_data_for_query q outcomes maxRetries base
        = (((List.range maxRetries).map
            (fun i => [FetchEv.attempt i, FetchEv.sleep (base * 2 ^ i)])).flatten, q, []))
    ∧ ((fetch_drug_data_for_query q outcomes maxRetries base).1.countP isAttempt ≤ maxRetries)
    ∧ (∀ i, i < maxRetries → (∀ j, j < i → outcomes j = .fail) →
        outcomes i = .ok .notList →
        (fetch_drug_data_for_query q outcomes maxRetries base).2 = (q, []))
    ∧ (∀ (queries : List String) (oracles : String → ℕ → AttemptResult),
        q ∈ queries → (∀ i, i < maxRetries → oracles q i = .fail) →
        (q, ([] : List ApiRaw)) ∈ fetchAll queries oracles maxRetries base
        ∧ (fetchAll queries oracles maxRetries base).length = queries.length) := by
  refine ⟨?_, ?_, ?_, ?_⟩
  · intro h
    rw [fetch_drug_data_for_query,
      fetchGo_all_fail outcomes base maxRetries 0
        (fun k hk => by rw [Nat.zero_add]; exact h k hk)]
    rw [List.range_eq_range']
    rfl
  · exact fetchGo_attempts_le outcomes base maxRetries 0
  · intro i hi hfail hok
    rw [fetch_drug_data_for_query,
      fetchGo_notList outcomes base maxRetries 0 i hi
        (fun j hj => by rw [Nat.zero_add]; exact hfail j hj)
        (by rw [Nat.zero_add]; exact hok)]
    rfl
  · intro queries oracles hq hfail
    constructor
    · have hres : (fetch_drug_data_for_query q (oracles q) maxRetries base).2 = (q, []) := by
        rw [fetch_drug_data_for_query,
          fetchGo_all_fail (oracles q) base maxRetries 0
            (fun k hk => by rw [Nat.zero_add]; exact hfail k hk)]
        rfl
      rw [fetchAll]
      exact hres ▸ List.mem_map_of_mem _ hq
    · exact List.length_map _ _

/-- Witness for C6: with the default retry ceiling 5 and base delay 2 and
an always-failing network, the fetch returns the empty result after five
attempts with sleeps 2, 4, 8, 16, 32 seconds. -/
theorem C6_fetch_retry_backoff_witness :
    fetch_drug_data_for_query "aa" (fun _ => .fail) MAX_RETRIES RETRY_DELAY_SECONDS
      = (((List.range MAX_RETRIES).map
          (fun i => [FetchEv.attempt i, FetchEv.sleep (RETRY_DELAY_SECONDS * 2 ^ i)])).flatten,
        "aa", []) :=
  (C6_fetch_retry_backoff "aa" (fun _ => .fail) MAX_RETRIES RETRY_DELAY_SECONDS).1
    (fun _ _ => rfl)

/-! ## Claim C3 — the commit writer appends to history only -/

/-- Counterexample to claim C3: the claim says every commit batch performs
both an upsert into a current-state table and an append into the history
log.  Committing one queued record performs exactly one store operation,
a history insert; no current-state upsert is ever emitted. -/
theorem C3_no_upsert_counterexample :
    (commitPhase [⟨"42", .val "12.5" false⟩] 1700000000 (fun _ => true)).1
        = [DbOp.historyInsert [⟨⟨"42", .val "12.5" false⟩, 1700000000⟩]]
    ∧ ((commitPhase [⟨"42", .val "12.5" false⟩] 1700000000 (fun _ => true)).1.all
        (fun op => ! op.isUpsert)) = true := by
  exact ⟨by decide, by decide⟩

/-- Claim C3 as amended: the commit writer cuts the queued records into
batches of at most 500, performs per batch a single append into the
history log with every row stamped with the commit's wall-clock time (no
current-state upsert exists), attempts every batch regardless of which
batches fail, and logs each failed batch as critical. -/
theorem C3_commit_history_batches (ups : List PRec) (now : ℕ) (ok ok2 : ℕ → Bool) :
    (∀ op ∈ (commitPhase ups now ok).1,
        op.isUpsert = false
        ∧ op.rows.length ≤ 500
        ∧ ∀ r ∈ op.rows, r.scraped_at = now)
    ∧ (commitPhase ups now ok).1 = (commitPhase ups now ok2).1
    ∧ (∀ i, i < (batchSlices (ups.map (fun r => (⟨r, now⟩ : HRow))) BATCH_INSERT_SIZE).length →
        ok i = false → i ∈ (commitPhase ups now ok).2) := by
  refine ⟨?_, rfl, ?_⟩
  · intro op hop
    rw [commitPhase] at hop
    simp only [List.mem_map] at hop
    obtain ⟨b, hb, rfl⟩ := hop
    rw [batchSlices, List.mem_map] at hb
    obtain ⟨i, _, rfl⟩ := hb
    refine ⟨rfl, ?_, ?_⟩
    · calc (((ups.map (fun r => (⟨r, now⟩ : HRow))).drop i).take BATCH_INSERT_SIZE).length
          ≤ BATCH_INSERT_SIZE := (List.length_take _ _).le.trans (min_le_left _ _)
        _ = 500 := rfl
    · intro r hr
      have hr2 : r ∈ ups.map (fun r => (⟨r, now⟩ : HRow)) :=
        List.mem_of_mem_drop (List.mem_of_mem_take hr)
      rw [List.mem_map] at hr2
      obtain ⟨r0, _, rfl⟩ := hr2
      rfl
  · intro i hi hfail
    rw [commitPhase]
    simp only [List.mem_filter, List.mem_range, List.length_map]
    exact ⟨by simpa using hi, by simp [hfail]⟩

/-- Witness for the amended C3 at a concrete one-record upload with a
failing batch. -/
theorem C3_commit_history_batches_witness :
    ((DbOp.historyInsert [⟨⟨"42", .val "12.5" false⟩, 1700000000⟩]).isUpsert = false
      ∧ (DbOp.historyInsert [⟨⟨"42", .val "12.5" false⟩, 1700000000⟩]).rows.length ≤ 500
      ∧ ∀ r ∈ (DbOp.historyInsert [⟨⟨"42", .val "12.5" false⟩, 1700000000⟩]).rows,
          r.scraped_at = 1700000000)
    ∧ (commitPhase [⟨"42", .val "12.5" false⟩] 1700000000 (fun _ => false)).1
        = (commitPhase [⟨"42", .val "12.5" false⟩] 1700000000 (fun _ => true)).1
    ∧ 0 ∈ (commitPhase [⟨"42", .val "12.5" false⟩] 1700000000 (fun _ => false)).2 :=
  ⟨(C3_commit_history_batches [⟨"42", .val "12.5" false⟩] 1700000000
      (fun _ => false) (fun _ => true)).1 _ (by decide),
   (C3_commit_history_batches [⟨"42", .val "12.5" false⟩] 1700000000
      (fun _ => false) (fun _ => true)).2.1,
   (C3_commit_history_batches [⟨"42", .val "12.5" false⟩] 1700000000
      (fun _ => false) (fun _ => true)).2.2 0 (by decide) rfl⟩

/-! ## The notification gate, structurally -/

theorem notifyGate_eq (avail : Bool) (outcome : CEntry → Bool) :
    ∀ entries : List CEntry,
      notifyGate avail outcome entries
        = (entries.filterMap (gateEv avail),
           (entries.filter (gateQueued avail outcome)).map (fun e => e.api)) := by
  intro entries
  induction entries with
  | nil => rfl
  | cons e rest ih =>
    cases hdb : e.db with
    | none =>
      simp [notifyGate, ih, List.filterMap_cons, List.filter_cons, gateEv, gateQueued, hdb]
    | some row =>
      by_cases hch : are_values_different e.api.currentPrice row.current_price = true
      · cases avail with
        | false =>
          simp [notifyGate, ih, List.filterMap_cons, List.filter_cons, gateEv, gateQueued,
            hdb, hch]
        | true =>
          cases hb : outcome e <;>
            simp [notifyGate, ih, List.filterMap_cons, List.filter_cons, gateEv, gateQueued,
              hdb, hch, hb]
      · rw [Bool.not_eq_true] at hch
        simp [notifyGate, ih, List.filterMap_cons, List.filter_cons, gateEv, gateQueued,
          hdb, hch]

theorem gateEv_id (avail : Bool) (e : CEntry) (ev : NotifyEvent)
    (h : gateEv avail e = some ev) : ev.id = e.api.ID := by
  rw [gateEv] at h
  split at h
  · exact Option.noConfusion h
  · split at h
    · rw [Option.some_inj] at h
      rw [← h]
    · exact Option.noConfusion h

/-- With the notifier unavailable no entry produces a notification
attempt, matching the warning-only branch of Connection.py line 510. -/
theorem gateEv_not_avail (e : CEntry) : gateEv false e = none := by
  cases hdb : e.db <;> simp [gateEv, hdb]

theorem filterMap_gateEv_false (l : List CEntry) : l.filterMap (gateEv false) = [] := by
  induction l with
  | nil => rfl
  | cons e rest ih =>
    rw [List.filterMap_cons, gateEv_not_avail]
    exact ih

/-- In a gate input whose entry identifiers are distinct, the
notification attempts carrying the identifier of a given entry are
exactly that entry's own attempt. -/
theorem events_filter_single (avail : Bool) (l : List CEntry) (e : CEntry)
    (hmem : e ∈ l) (hnd : (l.map (fun x => x.api.ID)).Nodup)
    (ev0 : NotifyEvent) (hev : gateEv avail e = some ev0) :
    (l.filterMap (gateEv avail)).filter (fun ev => ev.id == e.api.ID) = [ev0] := by
  induction l with
  | nil => exact absurd hmem (List.not_mem_nil e)
  | cons a rest ih =>
    rw [List.map_cons, List.nodup_cons] at hnd
    rcases List.mem_cons.1 hmem with rfl | hmem2
    · rw [List.filterMap_cons, hev, List.filter_cons]
      rw [if_pos (by simp [gateEv_id avail e ev0 hev])]
      have hrest :
          (rest.filterMap (gateEv avail)).filter (fun ev => ev.id == e.api.ID) = [] := by
        rw [List.filter_eq_nil_iff]
        intro ev hevm
        obtain ⟨e2, he2, hge⟩ := List.mem_filterMap.1 hevm
        rw [gateEv_id avail e2 ev hge]
        simp only [beq_iff_eq]
        intro hcontra
        exact hnd.1 (hcontra ▸ List.mem_map_of_mem (fun x => x.api.ID) he2)
      rw [hrest]
    · have hne : a.api.ID ≠ e.api.ID := by
        intro hcontra
        exact hnd.1 (hcontra ▸ List.mem_map_of_mem (fun x => x.api.ID) hmem2)
      rw [List.filterMap_cons]
      cases ha : gateEv avail a with
      | none => exact ih hmem2 hnd.2
      | some ev1 =>
        rw [List.filter_cons, if_neg (by simp [gateEv_id avail a ev1 ha, hne])]
        exact ih hmem2 hnd.2

/-! ## Claim C1 — notify-gated commit for CHANGED records -/

/-- Claim C1: in the gate loop over records_to_commit (with distinct
record identifiers, as guaranteed by upstream deduplication), every
CHANGED entry — one whose baseline row exists and whose price differs —
produces, with the notifier available, exactly one notification attempt
carrying the previous (stored) and current (fetched) price, and with
the notifier unavailable no attempt at all; the record is queued for
commit iff the notifier is available and the attempt succeeds, so a
CHANGED record whose notification failed or whose notifier is
unavailable is not committed in that run. -/
theorem C1_changed_notify_gated_commit (entries : List CEntry) (avail : Bool)
    (outcome : CEntry → Bool) (e : CEntry) (row : DbRec)
    (hmem : e ∈ entries) (hnd : (entries.map (fun x => x.api.ID)).Nodup)
    (hdb : e.db = some row)
    (hch : are_values_different e.api.currentPrice row.current_price = true) :
    (avail = true →
      ((notifyGate avail outcome entries).1.filter (fun ev => ev.id == e.api.ID))
        = [⟨e.api.ID, row.current_price, e.api.currentPrice⟩])
    ∧ (avail = false → (notifyGate avail outcome entries).1 = [])
    ∧ (e.api ∈ (notifyGate avail outcome entries).2 ↔ avail = true ∧ outcome e = true)
    ∧ (avail = false → e.api ∉ (notifyGate avail outcome entries).2) := by
  have hq : gateQueued avail outcome e = (avail && outcome e) := by
    simp [gateQueued, hdb, hch]
  have hiff : e.api ∈ (notifyGate avail outcome entries).2
      ↔ avail = true ∧ outcome e = true := by
    rw [notifyGate_eq]
    constructor
    · intro h
      obtain ⟨e2, he2, heq⟩ := List.mem_map.1 h
      rw [List.mem_filter] at he2
      have he2mem := he2.1
      have hid : e2.api.ID = e.api.ID := by rw [heq]
      have he2e : e2 = e := List.inj_on_of_nodup_map hnd he2mem hmem hid
      subst he2e
      have := he2.2
      rw [hq] at this
      simpa using this
    · rintro ⟨ha, ho⟩
      refine List.mem_map_of_mem _ (List.mem_filter.2 ⟨hmem, ?_⟩)
      rw [hq, ha, ho]
      rfl
  refine ⟨?_, ?_, hiff, ?_⟩
  · intro hav
    subst hav
    have hev : gateEv true e = some ⟨e.api.ID, row.current_price, e.api.currentPrice⟩ := by
      simp [gateEv, hdb, hch]
    rw [notifyGate_eq]
    exact events_filter_single true entries e hmem hnd _ hev
  · intro hav
    subst hav
    rw [notifyGate_eq]
    exact filterMap_gateEv_false entries
  · intro ha
    intro hcontra
    have := hiff.1 hcontra
    rw [ha] at this
    exact Bool.false_ne_true this.1

/-- Witness for C1 at a concrete CHANGED record: with the notifier
available and the delivery succeeding the single attempt is emitted and
the record queued; with the notifier unavailable no attempt is made and
the record is not queued. -/
theorem C1_changed_notify_gated_commit_witness :
    ((notifyGate true (fun _ => true)
        [⟨⟨"42", .val "12.5" false⟩, some ⟨"42", .val "10.00" false⟩⟩]).1.filter
          (fun ev => ev.id == "42"))
        = [⟨"42", .val "10.00" false, .val "12.5" false⟩]
    ∧ ((⟨"42", .val "12.5" false⟩ : PRec) ∈
        (notifyGate true (fun _ => true)
          [⟨⟨"42", .val "12.5" false⟩, some ⟨"42", .val "10.00" false⟩⟩]).2)
    ∧ (notifyGate false (fun _ => true)
        [⟨⟨"42", .val "12.5" false⟩, some ⟨"42", .val "10.00" false⟩⟩]).1 = []
    ∧ ((⟨"42", .val "12.5" false⟩ : PRec) ∉
        (notifyGate false (fun _ => true)
          [⟨⟨"42", .val "12.5" false⟩, some ⟨"42", .val "10.00" false⟩⟩]).2) :=
  ⟨(C1_changed_notify_gated_commit
      [⟨⟨"42", .val "12.5" false⟩, some ⟨"42", .val "10.00" false⟩⟩] true (fun _ => true)
      ⟨⟨"42", .val "12.5" false⟩, some ⟨"42", .val "10.00" false⟩⟩ ⟨"42", .val "10.00" false⟩
      (by decide) (by decide) rfl (by decide)).1 rfl,
   (C1_changed_notify_gated_commit
      [⟨⟨"42", .val "12.5" false⟩, some ⟨"42", .val "10.00" false⟩⟩] true (fun _ => true)
      ⟨⟨"42", .val "12.5" false⟩, some ⟨"42", .val "10.00" false⟩⟩ ⟨"42", .val "10.00" false⟩
      (by decide) (by decide) rfl (by decide)).2.2.1.mpr ⟨rfl, rfl⟩,
   (C1_changed_notify_gated_commit
      [⟨⟨"42", .val "12.5" false⟩, some ⟨"42", .val "10.00" false⟩⟩] false (fun _ => true)
      ⟨⟨"42", .val "12.5" false⟩, some ⟨"42", .val "10.00" false⟩⟩ ⟨"42", .val "10.00" false⟩
      (by decide) (by decide) rfl (by decide)).2.1 rfl,
   (C1_changed_notify_gated_commit
      [⟨⟨"42", .val "12.5" false⟩, some ⟨"42", .val "10.00" false⟩⟩] false (fun _ => true)
      ⟨⟨"42", .val "12.5" false⟩, some ⟨"42", .val "10.00" false⟩⟩ ⟨"42", .val "10.00" false⟩
      (by decide) (by decide) rfl (by decide)).2.2.2 rfl⟩

/-! ## Classification lemmas -/

theorem classifyOne_api (base : String → Option DbRec) (d : PRec) (e : CEntry)
    (h : classifyOne base d = some e) : e.api = d := by
  rw [classifyOne] at h
  split_ifs at h with hid
  split at h
  · rw [Option.some_inj] at h
    rw [← h]
  · split_ifs at h with hch
    rw [Option.some_inj] at h
    rw [← h]

theorem classify_ids_sublist (drugs : List PRec) (base : String → Option DbRec) :
    ((classifyRecords drugs base).map (fun e => e.api.ID)).Sublist (drugs.map PRec.ID) := by
  induction drugs with
  | nil => simp [classifyRecords]
  | cons d rest ih =>
    rw [classifyRecords, List.filterMap_cons]
    cases h : classifyOne base d with
    | none => exact (ih : _).cons d.ID
    | some e =>
      rw [List.map_cons, List.map_cons, classifyOne_api base d e h]
      exact (ih : _).cons₂ d.ID

theorem classify_nodup (drugs : List PRec) (base : String → Option DbRec)
    (hnd : (drugs.map PRec.ID).Nodup) :
    ((classifyRecords drugs base).map (fun e => e.api.ID)).Nodup :=
  hnd.sublist (classify_ids_sublist drugs base)

theorem classify_mem_elim (drugs : List PRec) (base : String → Option DbRec) (e : CEntry)
    (h : e ∈ classifyRecords drugs base) :
    e.api ∈ drugs ∧ classifyOne base e.api = some e := by
  obtain ⟨d, hd, hf⟩ := List.mem_filterMap.1 h
  have := classifyOne_api base d e hf
  subst this
  exact ⟨hd, hf⟩

/-! ## Claim C4 — NEW records commit unconditionally, without notify -/

/-- Claim C4: a candidate record absent from the loaded baseline set is
classified NEW (it enters records_to_commit with no baseline row) and is
queued for commit for every notifier availability and outcome, while no
notification attempt carries its identifier. -/
theorem C4_new_committed_without_notify (drugs : List PRec)
    (base : String → Option DbRec) (avail : Bool) (outcome : CEntry → Bool) (d : PRec)
    (hmem : d ∈ drugs) (hid : d.ID ≠ "") (hnd : (drugs.map PRec.ID).Nodup)
    (hbase : base d.ID = none) :
    (⟨d, none⟩ : CEntry) ∈ classifyRecords drugs base
    ∧ d ∈ (notifyGate avail outcome (classifyRecords drugs base)).2
    ∧ (notifyGate avail outcome (classifyRecords drugs base)).1.filter
        (fun ev => ev.id == d.ID) = [] := by
  have hone : classifyOne base d = some ⟨d, none⟩ := by
    rw [classifyOne, if_neg hid, hbase]
  have hmem2 : (⟨d, none⟩ : CEntry) ∈ classifyRecords drugs base :=
    List.mem_filterMap.2 ⟨d, hmem, hone⟩
  have hend : ((classifyRecords drugs base).map (fun e => e.api.ID)).Nodup :=
    classify_nodup drugs base hnd
  refine ⟨hmem2, ?_, ?_⟩
  · rw [notifyGate_eq]
    exact List.mem_map_of_mem _ (List.mem_filter.2 ⟨hmem2, rfl⟩)
  · rw [notifyGate_eq]
    rw [List.filter_eq_nil_iff]
    intro ev hevm
    obtain ⟨e2, he2, hge⟩ := List.mem_filterMap.1 hevm
    rw [gateEv_id avail e2 ev hge]
    simp only [beq_iff_eq]
    intro hcontra
    have he2e : e2 = ⟨d, none⟩ :=
      List.inj_on_of_nodup_map hend he2 hmem2 (by exact hcontra)
    rw [he2e, gateEv] at hge
    exact Option.noConfusion hge

/-- Witness for C4 at a concrete record with no baseline, an unavailable
notifier and a failing outcome. -/
theorem C4_new_committed_without_notify_witness :
    (⟨⟨"99", .val "7" false⟩, none⟩ : CEntry)
        ∈ classifyRecords [⟨"99", .val "7" false⟩] (fun _ => none)
    ∧ (⟨"99", .val "7" false⟩ : PRec)
        ∈ (notifyGate false (fun _ => false)
            (classifyRecords [⟨"99", .val "7" false⟩] (fun _ => none))).2 :=
  ⟨(C4_new_committed_without_notify [⟨"99", .val "7" false⟩] (fun _ => none)
      false (fun _ => false) ⟨"99", .val "7" false⟩
      (by decide) (by decide) (by decide) rfl).1,
   (C4_new_committed_without_notify [⟨"99", .val "7" false⟩] (fun _ => none)
      false (fun _ => false) ⟨"99", .val "7" false⟩
      (by decide) (by decide) (by decide) rfl).2.1⟩

/-! ## Claim C5 — type-aware difference order and classification -/

/-- Claim C5: the value-difference test follows the stated type-aware
order — two Nones are equal; None against non-None differs; if both
sides parse as exact decimals, decimal equality decides; otherwise if
both parse as timestamps, timestamp equality decides; otherwise stripped
string equality decides — and for a candidate with a baseline a price
difference puts the CHANGED pair into records_to_commit while equality
classifies UNCHANGED: the record enters no records_to_commit entry, is
never notified and never committed. -/
theorem C5_type_aware_diff_order :
    (are_values_different PyVal.null PyVal.null = false)
    ∧ (∀ (s : String) (b : Bool),
        are_values_different PyVal.null (.val s b) = true
        ∧ are_values_different (.val s b) PyVal.null = true)
    ∧ (∀ (v1 v2 : PyVal) (d1 d2 : Dec), v1 ≠ PyVal.null → v2 ≠ PyVal.null →
        to_decimal_or_none v1 = some d1 → to_decimal_or_none v2 = some d2 →
        are_values_different v1 v2 = decNe d1 d2)
    ∧ (∀ (v1 v2 : PyVal) (t1 t2 : Dt), v1 ≠ PyVal.null → v2 ≠ PyVal.null →
        (to_decimal_or_none v1 = none ∨ to_decimal_or_none v2 = none) →
        parse_iso_datetime v1 = some t1 → parse_iso_datetime v2 = some t2 →
        are_values_different v1 v2 = dtNe t1 t2)
    ∧ (∀ v1 v2 : PyVal, v1 ≠ PyVal.null → v2 ≠ PyVal.null →
        (to_decimal_or_none v1 = none ∨ to_decimal_or_none v2 = none) →
        (parse_iso_datetime v1 = none ∨ parse_iso_datetime v2 = none) →
        are_values_different v1 v2
          = if pyStripWs (pyStr v1).toList = pyStripWs (pyStr v2).toList then false else true)
    ∧ (∀ (drugs : List PRec) (base : String → Option DbRec) (avail : Bool)
        (outcome : CEntry → Bool) (d : PRec) (row : DbRec),
        d ∈ drugs → (drugs.map PRec.ID).Nodup → d.ID ≠ "" → base d.ID = some row →
        (are_values_different d.currentPrice row.current_price = true →
          (⟨d, some row⟩ : CEntry) ∈ classifyRecords drugs base)
        ∧ (are_values_different d.currentPrice row.current_price = false →
          (⟨d, some row⟩ : CEntry) ∉ classifyRecords drugs base
          ∧ (notifyGate avail outcome (classifyRecords drugs base)).1.filter
              (fun ev => ev.id == d.ID) = []
          ∧ d ∉ (notifyGate avail outcome (classifyRecords drugs base)).2)) := by
  have hval : ∀ v : PyVal, v ≠ PyVal.null → ∃ s b, v = .val s b := by
    intro v hv
    cases v with
    | null => exact absurd rfl hv
    | val s b => exact ⟨s, b, rfl⟩
  refine ⟨rfl, ?_, ?_, ?_, ?_, ?_⟩
  · intro s b
    constructor <;> simp [are_values_different, val_ne_null s b]
  · intro v1 v2 d1 d2 h1 h2 hd1 hd2
    obtain ⟨s1, b1, rfl⟩ := hval v1 h1
    obtain ⟨s2, b2, rfl⟩ := hval v2 h2
    rw [are_values_different_val_val, hd1, hd2]
  · intro v1 v2 t1 t2 h1 h2 hdec ht1 ht2
    obtain ⟨s1, b1, rfl⟩ := hval v1 h1
    obtain ⟨s2, b2, rfl⟩ := hval v2 h2
    rw [are_values_different_val_val]
    rcases hdec with hd | hd
    · rw [hd, ht1, ht2]
    · rw [hd, ht1, ht2]
      cases to_decimal_or_none (PyVal.val s1 b1) <;> rfl
  · intro v1 v2 h1 h2 hdec hiso
    obtain ⟨s1, b1, rfl⟩ := hval v1 h1
    obtain ⟨s2, b2, rfl⟩ := hval v2 h2
    rw [are_values_different_val_val]
    have hfall :
        (match parse_iso_datetime (PyVal.val s1 b1), parse_iso_datetime (PyVal.val s2 b2) with
          | some t1, some t2 => dtNe t1 t2
          | _, _ =>
            if pyStripWs s1.toList = pyStripWs s2.toList then false else true)
          = if pyStripWs s1.toList = pyStripWs s2.toList then false else true := by
      rcases hiso with hi | hi
      · rw [hi]
      · rw [hi]
        cases parse_iso_datetime (PyVal.val s1 b1) <;> rfl
    rcases hdec with hd | hd
    · rw [hd]
      exact hfall
    · rw [hd]
      cases to_decimal_or_none (PyVal.val s1 b1) <;> exact hfall
  · intro drugs base avail outcome d row hmem hnd hid hbase
    constructor
    · intro hch
      refine List.mem_filterMap.2 ⟨d, hmem, ?_⟩
      simp [classifyOne, hid, hbase, hch]
    · intro hch
      rw [Bool.eq_false_iff] at hch
      have hone : classifyOne base d = none := by
        simp [classifyOne, hid, hbase, hch]
      have hnotin : ∀ e : CEntry, e ∈ classifyRecords drugs base → e.api.ID ≠ d.ID := by
        intro e he hcontra
        obtain ⟨hapi, hcls⟩ := classify_mem_elim drugs base e he
        have : e.api = d := List.inj_on_of_nodup_map hnd hapi hmem hcontra
        rw [this, hone] at hcls
        exact Option.noConfusion hcls
      refine ⟨?_, ?_, ?_⟩
      · intro hcontra
        exact hnotin _ hcontra rfl
      · rw [notifyGate_eq, List.filter_eq_nil_iff]
        intro ev hevm
        obtain ⟨e2, he2, hge⟩ := List.mem_filterMap.1 hevm
        rw [gateEv_id avail e2 ev hge]
        simp only [beq_iff_eq]
        exact hnotin e2 he2
      · rw [notifyGate_eq]
        intro hcontra
        obtain ⟨e2, he2, heq⟩ := List.mem_map.1 hcontra
        rw [List.mem_filter] at he2
        exact hnotin e2 he2.1 (by rw [heq])

/-- Witness for C5: decimal branch, timestamp branch, string fallback and
the UNCHANGED classification at concrete values. -/
theorem C5_type_aware_diff_order_witness :
    are_values_different (.val "10.0" false) (.val "12.5" false)
        = decNe (.num ⟨100, 10⟩) (.num ⟨125, 10⟩)
    ∧ are_values_different (.val "2024-01-02" true) (.val "2024-01-02" true)
        = dtNe ⟨⟨1704153600, 1⟩, none⟩ ⟨⟨1704153600, 1⟩, none⟩
    ∧ are_values_different (.val " abc " true) (.val "abc" true)
        = (if pyStripWs " abc ".toList = pyStripWs "abc".toList then false else true)
    ∧ ((⟨⟨"42", .val "10.0" false⟩, some ⟨"42", .val "10.00" false⟩⟩ : CEntry)
        ∉ classifyRecords [⟨"42", .val "10.0" false⟩]
            (fun _ => some ⟨"42", .val "10.00" false⟩)) :=
  ⟨C5_type_aware_diff_order.2.2.1 (.val "10.0" false) (.val "12.5" false)
     (.num ⟨100, 10⟩) (.num ⟨125, 10⟩) (by decide) (by decide) (by decide) (by decide),
   C5_type_aware_diff_order.2.2.2.1 (.val "2024-01-02" true) (.val "2024-01-02" true)
     ⟨⟨1704153600, 1⟩, none⟩ ⟨⟨1704153600, 1⟩, none⟩ (by decide) (by decide)
     (Or.inl (by decide)) (by decide) (by decide),
   C5_type_aware_diff_order.2.2.2.2.1 (.val " abc " true) (.val "abc" true)
     (by decide) (by decide) (Or.inl (by decide)) (Or.inl (by decide)),
   ((C5_type_aware_diff_order.2.2.2.2.2 [⟨"42", .val "10.0" false⟩]
       (fun _ => some ⟨"42", .val "10.00" false⟩) true (fun _ => true)
       ⟨"42", .val "10.0" false⟩ ⟨"42", .val "10.00" false⟩
       (by decide) (by decide) (by decide) rfl).2 (by decide)).1⟩

/-! ## Deduplication lemmas -/

theorem dictInsert_keys (m : List (String × PRec)) (k : String) (v : PRec) :
    (dictInsert m k v).map Prod.fst
      = if k ∈ m.map Prod.fst then m.map Prod.fst else m.map Prod.fst ++ [k] := by
  rw [dictInsert]
  split_ifs with h
  · rw [List.map_map]
    refine List.map_congr_left (fun p _ => ?_)
    by_cases hp : p.1 = k
    · simp [Function.comp, hp]
    · simp [Function.comp, hp]
  · simp

theorem dictInsert_keys_nodup (m : List (String × PRec)) (k : String) (v : PRec)
    (h : (m.map Prod.fst).Nodup) : ((dictInsert m k v).map Prod.fst).Nodup := by
  rw [dictInsert_keys]
  split_ifs with hc
  · exact h
  · rw [List.nodup_append]
    exact ⟨h, List.nodup_singleton k,
      fun x hx hx2 => by rw [List.mem_singleton] at hx2; subst hx2; exact hc hx⟩

theorem dictLookup_replace (m : List (String × PRec)) (k : String) (v : PRec) (x : String) :
    dictLookup (m.map (fun p => if p.1 = k then (k, v) else p)) x
      = if x = k then (dictLookup m k).map (fun _ => v) else dictLookup m x := by
  induction m with
  | nil => by_cases h : x = k <;> simp [dictLookup, h]
  | cons p rest ih =>
    by_cases hp : p.1 = k
    · by_cases hx : x = k
      · subst hx
        simp [dictLookup, hp, ih]
      · have hkx : ¬ (k = x) := fun h => hx h.symm
        have hpx : ¬ (p.1 = x) := by rw [hp]; exact hkx
        simp [dictLookup, hp, hx, hkx, hpx, ih]
    · by_cases hx : x = k
      · subst hx
        simp [dictLookup, hp, ih]
      · by_cases hpx : p.1 = x
        · simp [dictLookup, hp, hpx, hx]
        · simp [dictLookup, hp, hpx, hx, ih]

theorem dictLookup_append_single (m : List (String × PRec)) (k : String) (v : PRec)
    (x : String) :
    dictLookup (m ++ [(k, v)]) x
      = match dictLookup m x with
        | some b => some b
        | none => if k = x then some v else none := by
  induction m with
  | nil => simp [dictLookup]
  | cons p rest ih =>
    by_cases hpx : p.1 = x <;> simp [dictLookup, hpx, ih]

theorem dictLookup_eq_none (m : List (String × PRec)) (x : String) :
    dictLookup m x = none ↔ x ∉ m.map Prod.fst := by
  induction m with
  | nil => simp [dictLookup]
  | cons p rest ih =>
    by_cases hpx : p.1 = x
    · simp [dictLookup, hpx]
    · have hxp : ¬ (x = p.1) := fun h => hpx h.symm
      simp [dictLookup, hpx, hxp, ih]

theorem dictLookup_dictInsert (m : List (String × PRec)) (k : String) (v : PRec)
    (x : String) :
    dictLookup (dictInsert m k v) x = if x = k then some v else dictLookup m x := by
  rw [dictInsert]
  by_cases hmem : k ∈ m.map Prod.fst
  · rw [if_pos hmem, dictLookup_replace]
    by_cases hx : x = k
    · subst hx
      obtain ⟨b, hb⟩ : ∃ b, dictLookup m x = some b := by
        cases hd : dictLookup m x with
        | none => exact absurd hmem ((dictLookup_eq_none m x).1 hd)
        | some b => exact ⟨b, rfl⟩
      simp [hb]
    · simp [hx]
  · rw [if_neg hmem, dictLookup_append_single]
    by_cases hx : x = k
    · subst hx
      rw [(dictLookup_eq_none m x).2 hmem]
    · have hkx : ¬ (k = x) := fun h => hx h.symm
      cases hd : dictLookup m x with
      | none => simp [hd, hkx, hx]
      | some b => simp [hd, hx]

theorem udict_step (xs : List PRec) (d : PRec) :
    unique_drugs_dict (xs ++ [d])
      = if d.ID = "" then unique_drugs_dict xs
        else dictInsert (unique_drugs_dict xs) d.ID d := by
  rw [unique_drugs_dict, unique_drugs_dict, List.foldl_append]
  rfl

theorem udict_pairs (xs : List PRec) :
    ∀ p ∈ unique_drugs_dict xs, p.2.ID = p.1 ∧ p.1 ≠ "" := by
  induction xs using List.reverseRecOn with
  | nil => intro p hp; simp [unique_drugs_dict] at hp
  | append_singleton l d ih =>
    rw [udict_step]
    split_ifs with hid
    · exact ih
    · intro p hp
      rw [dictInsert] at hp
      split_ifs at hp with hmem
      · obtain ⟨q, hq, hqe⟩ := List.mem_map.1 hp
        by_cases hqk : q.1 = d.ID
        · rw [if_pos hqk] at hqe
          rw [← hqe]
          exact ⟨rfl, hid⟩
        · rw [if_neg hqk] at hqe
          rw [← hqe]
          exact ih q hq
      · rcases List.mem_append.1 hp with hmm | hnew
        · exact ih p hmm
        · rw [List.mem_singleton] at hnew
          subst hnew
          exact ⟨rfl, hid⟩

theorem udict_keys_nodup (xs : List PRec) :
    ((unique_drugs_dict xs).map Prod.fst).Nodup := by
  induction xs using List.reverseRecOn with
  | nil => simp [unique_drugs_dict]
  | append_singleton l d ih =>
    rw [udict_step]
    split_ifs with hid
    · exact ih
    · exact dictInsert_keys_nodup _ _ _ ih

theorem udict_lookup (xs : List PRec) (k : String) (hk : k ≠ "") :
    dictLookup (unique_drugs_dict xs) k = lastOcc xs k := by
  induction xs using List.reverseRecOn with
  | nil => simp [unique_drugs_dict, lastOcc, dictLookup]
  | append_singleton l d ih =>
    have hlast : lastOcc (l ++ [d]) k = if d.ID = k then some d else lastOcc l k := by
      rw [lastOcc, lastOcc, List.filter_append]
      by_cases hdk : d.ID = k
      · simp [hdk, List.getLast?_concat]
      · simp [hdk]
    rw [udict_step, hlast]
    by_cases hid : d.ID = ""
    · rw [if_pos hid]
      have hdk : ¬ (d.ID = k) := by rw [hid]; exact Ne.symm hk
      rw [if_neg hdk]
      exact ih
    · rw [if_neg hid]
      by_cases hdk : d.ID = k
      · rw [if_pos hdk, dictLookup_dictInsert, if_pos hdk.symm]
      · rw [if_neg hdk, dictLookup_dictInsert, if_neg (fun h => hdk h.symm)]
        exact ih

theorem dictLookup_eq_some_of_mem (m : List (String × PRec))
    (hnd : (m.map Prod.fst).Nodup) (k : String) (v : PRec) (h : (k, v) ∈ m) :
    dictLookup m k = some v := by
  induction m with
  | nil => cases h
  | cons p rest ih =>
    rw [List.map_cons, List.nodup_cons] at hnd
    rcases List.mem_cons.1 h with rfl | hmem
    · simp [dictLookup]
    · have hpk : ¬ (p.1 = k) := by
        intro hc
        exact hnd.1 (hc ▸ List.mem_map_of_mem Prod.fst hmem)
      simp [dictLookup, hpk, ih hnd.2 hmem]

theorem mem_of_dictLookup_eq_some (m : List (String × PRec)) (k : String) (v : PRec)
    (h : dictLookup m k = some v) : (k, v) ∈ m := by
  induction m with
  | nil => exact Option.noConfusion h
  | cons p rest ih =>
    rcases p with ⟨a, b⟩
    rw [dictLookup] at h
    split_ifs at h with hak
    · rw [Option.some_inj] at h
      simp only at hak
      rw [← hak, ← h]
      exact List.mem_cons_self _ _
    · exact List.mem_cons.2 (Or.inr (ih h))

theorem lastOcc_mem (xs : List PRec) (k : String) (r : PRec)
    (h : lastOcc xs k = some r) : r ∈ xs ∧ r.ID = k := by
  rw [lastOcc] at h
  have hmem : r ∈ xs.filter (fun e => e.ID = k) := by
    obtain ⟨hne, heq⟩ := List.mem_getLast?_eq_getLast (Option.mem_def.2 h)
    rw [heq]
    exact List.getLast_mem hne
  have := List.mem_filter.1 hmem
  exact ⟨this.1, by simpa using this.2⟩

/-! ## Claim C8 — deduplication: unique identifiers, last record wins -/

/-- Claim C8: after the dict-comprehension deduplication, identifiers are
unique among the records fed downstream; a record is fed downstream iff
it is the last record in iteration order carrying its (truthy)
identifier — so for the same identifier returned by two different shards
exactly one record survives; and every truthy identifier occurring in
the mapped results occurs among the deduplicated records. -/
theorem C8_dedup_unique_last_wins (xs : List PRec) :
    ((unique_drugs_list xs).map PRec.ID).Nodup
    ∧ (∀ d : PRec, d ∈ unique_drugs_list xs ↔ d.ID ≠ "" ∧ lastOcc xs d.ID = some d)
    ∧ (∀ k : String, k ≠ "" →
        (k ∈ (unique_drugs_list xs).map PRec.ID ↔ k ∈ xs.map PRec.ID)) := by
  have hpairs := udict_pairs xs
  have hnd := udict_keys_nodup xs
  have hids : (unique_drugs_list xs).map PRec.ID = (unique_drugs_dict xs).map Prod.fst := by
    rw [unique_drugs_list, List.map_map]
    exact List.map_congr_left (fun p hp => (hpairs p hp).1)
  have hiff : ∀ d : PRec,
      d ∈ unique_drugs_list xs ↔ d.ID ≠ "" ∧ lastOcc xs d.ID = some d := by
    intro d
    constructor
    · intro hd
      obtain ⟨p, hp, hpe⟩ := List.mem_map.1 hd
      obtain ⟨hpid, hpne⟩ := hpairs p hp
      rcases p with ⟨a, b⟩
      simp only at hpe hpid hpne
      subst hpe
      have hbid : b.ID ≠ "" := by rw [hpid]; exact hpne
      refine ⟨hbid, ?_⟩
      rw [← udict_lookup xs b.ID hbid]
      have hp2 : (b.ID, b) ∈ unique_drugs_dict xs := by rw [hpid]; exact hp
      exact dictLookup_eq_some_of_mem _ hnd _ _ hp2
    · rintro ⟨hid, hlast⟩
      have hlk : dictLookup (unique_drugs_dict xs) d.ID = some d := by
        rw [udict_lookup xs d.ID hid]
        exact hlast
      exact List.mem_map.2 ⟨(d.ID, d), mem_of_dictLookup_eq_some _ _ _ hlk, rfl⟩
  refine ⟨by rw [hids]; exact hnd, hiff, ?_⟩
  intro k hk
  constructor
  · intro hmem
    obtain ⟨r, hr, hre⟩ := List.mem_map.1 hmem
    have h2 := (hiff r).1 hr
    have hrm := lastOcc_mem xs r.ID r h2.2
    rw [← hre]
    exact List.mem_map_of_mem PRec.ID hrm.1
  · intro hmem
    obtain ⟨r, hr, hre⟩ := List.mem_map.1 hmem
    have hne : xs.filter (fun e => e.ID = k) ≠ [] := by
      intro hnil
      have hrf : r ∈ xs.filter (fun e => e.ID = k) :=
        List.mem_filter.2 ⟨hr, by simp [hre]⟩
      rw [hnil] at hrf
      exact List.not_mem_nil r hrf
    obtain ⟨r2, hr2⟩ : ∃ r2, lastOcc xs k = some r2 := by
      cases hl : lastOcc xs k with
      | none =>
        rw [lastOcc] at hl
        exact absurd (List.getLast?_eq_none_iff.1 hl) hne
      | some r2 => exact ⟨r2, rfl⟩
    have hr2m := lastOcc_mem xs k r2 hr2
    have hr2mem : r2 ∈ unique_drugs_list xs :=
      (hiff r2).2 ⟨by rw [hr2m.2]; exact hk, by rw [hr2m.2]; exact hr2⟩
    rw [show k = r2.ID from hr2m.2.symm]
    exact List.mem_map_of_mem PRec.ID hr2mem

/-- Witness for C8 at a concrete run where two shards return the same
identifier. -/
theorem C8_dedup_unique_last_wins_witness :
    ((unique_drugs_list
        [⟨"a", .val "1" false⟩, ⟨"b", .val "2" false⟩, ⟨"a", .val "3" false⟩]).map
          PRec.ID).Nodup
    ∧ ((⟨"a", .val "3" false⟩ : PRec) ∈ unique_drugs_list
          [⟨"a", .val "1" false⟩, ⟨"b", .val "2" false⟩, ⟨"a", .val "3" false⟩]
        ↔ ("a" : String) ≠ ""
          ∧ lastOcc [⟨"a", .val "1" false⟩, ⟨"b", .val "2" false⟩, ⟨"a", .val "3" false⟩] "a"
              = some ⟨"a", .val "3" false⟩)
    ∧ (("a" : String) ∈ (unique_drugs_list
          [⟨"a", .val "1" false⟩, ⟨"b", .val "2" false⟩, ⟨"a", .val "3" false⟩]).map PRec.ID
        ↔ ("a" : String) ∈
            ([⟨"a", .val "1" false⟩, ⟨"b", .val "2" false⟩,
              ⟨"a", .val "3" false⟩] : List PRec).map PRec.ID) :=
  ⟨(C8_dedup_unique_last_wins
      [⟨"a", .val "1" false⟩, ⟨"b", .val "2" false⟩, ⟨"a", .val "3" false⟩]).1,
   (C8_dedup_unique_last_wins
      [⟨"a", .val "1" false⟩, ⟨"b", .val "2" false⟩, ⟨"a", .val "3" false⟩]).2.1
      ⟨"a", .val "3" false⟩,
   (C8_dedup_unique_last_wins
      [⟨"a", .val "1" false⟩, ⟨"b", .val "2" false⟩, ⟨"a", .val "3" false⟩]).2.2
      "a" (by decide)⟩

end Conn
